import Mathlib

/-!
Verification development for the task-queue backend.

The embedding follows the two source modules:

* `Processor` models `src/processor/index.py`: the module-level idempotency
  set `processed_tasks`, the function `process_task`, and the batch loop of
  `lambda_handler`.
* `Api` models `src/api/models.py` (the `TaskCreate` validation pipeline) and
  `src/api/index.py` (the `create_task` endpoint body and the
  `validate_api_key` middleware).

Python machine-level collaborators are modelled as follows: a deserialized
JSON scalar is a `JVal`; the outcome of `json.loads` on a record body is a
`Body` (decode error, non-object value, or object rendered as an association
list with string keys); the Python `set` of scalars is a duplicate-free list
built by insert-if-absent, so that membership and size behave as in the
source.  Logging calls have no effect on the modelled state and are omitted.
-/

namespace TaskQueue

namespace Processor

/-- JSON scalar values as produced by deserializing a message body.  Only the
constructors that can actually flow into the idempotency set are modelled:
strings, integers, booleans and null (the value of a `task_id` field can be
any of these, and `dict.get` returns it unchanged). -/
inductive JVal where
  | s (v : String)
  | n (v : Int)
  | b (v : Bool)
  | null
  deriving DecidableEq, Repr

/-- A deserialized JSON object: association list from string keys to values.
Values that are themselves nested objects or arrays never reach the modelled
state (only the `task_id` field does), so object fields carry `JVal`. -/
abbrev TaskData := List (String × JVal)

/-- Python `dict.get(k)`: the value at the first matching key, if any. -/
def dictGet (d : TaskData) (k : String) : Option JVal :=
  (d.find? (fun p => p.1 == k)).map (fun p => p.2)

/-- Result of `json.loads` on a record body, as the handler consumes it:
`malformed` is a `JSONDecodeError` (the raw text is kept only for logging),
`value` is a successful parse to a non-object (on which `task_data.get`
raises `AttributeError`, caught by the generic handler), `obj` is a
successful parse to a JSON object. -/
inductive Body where
  | malformed (raw : String)
  | value (v : JVal)
  | obj (fields : TaskData)
  deriving DecidableEq, Repr

/-- One entry of the `Records` list of the SQS event.  `messageId` and `body`
are the fields the handler branches on; `receiptHandle` and `attributes` are
only logged and are omitted from the model.  `none` means the key is absent
from the record dictionary. -/
structure SQSRecord where
  messageId : Option String
  body : Option Body
  deriving DecidableEq, Repr

/-- The module-level `processed_tasks` set at consumer-process start: empty.
The set itself is threaded through the functions below as explicit state,
rendered as a duplicate-free list. -/
def processed_tasks : List JVal := []

/-- Source line `task_data.get("task_id", "unknown")`. -/
def getTaskId (task_data : TaskData) : JVal :=
  (dictGet task_data "task_id").getD (JVal.s "unknown")

/-- Embedding of `process_task`: extract the task id with default
`"unknown"`, return the set unchanged when the id is already present,
otherwise add it.  The simulated processing between the check and the add is
logging only and never raises. -/
def process_task (processed : List JVal) (task_data : TaskData) : List JVal :=
  let task_id := getTaskId task_data
  if task_id ∈ processed then processed
  else processed ++ [task_id]

/-- Embedding of one iteration of the record loop of `lambda_handler`.  The
state is the pair of the idempotency set and the accumulated
`batch_item_failures` identifiers.  `record.get("messageId", "unknown")` and
`record.get("body", "\x7b\x7d")` give the defaults for absent keys (an absent
body parses to the empty object).  A decode error or a non-object body lands
in an `except` arm that appends the message id to the failures and continues;
a parsed object is passed to `process_task`, which never raises. -/
def processRecord (st : List JVal × List String) (record : SQSRecord) :
    List JVal × List String :=
  let message_id := record.messageId.getD "unknown"
  match record.body.getD (Body.obj []) with
  | Body.obj task_data => (process_task st.1 task_data, st.2)
  | Body.malformed _ => (st.1, st.2 ++ [message_id])
  | Body.value _ => (st.1, st.2 ++ [message_id])

/-- Embedding of `lambda_handler`: fold the record loop over the `Records`
list (the source reads `event.get("Records", [])`, so an event without the
key corresponds to the empty list; the `context` argument is only logged).
The first component of the result is the idempotency set after the batch,
the second is the `itemIdentifier` list of the returned
`batchItemFailures`. -/
def lambda_handler (processed : List JVal) (records : List SQSRecord) :
    List JVal × List String :=
  records.foldl processRecord (processed, [])

/-- The failure identifiers contributed by a single record, independent of
the current idempotency set. -/
def recordFails (record : SQSRecord) : List String :=
  match record.body.getD (Body.obj []) with
  | Body.obj _ => []
  | _ => [record.messageId.getD "unknown"]

/-- Whether a record has a body that deserializes to a JSON object. -/
def isObjRecord (record : SQSRecord) : Bool :=
  match record.body with
  | some (Body.obj _) => true
  | _ => false

/-- The task id a record resolves to when its body deserializes to a JSON
object; the sentinel for every other record shape (those never reach
`process_task`). -/
def recordTaskId (record : SQSRecord) : JVal :=
  match record.body with
  | some (Body.obj fields) => getTaskId fields
  | _ => JVal.s "unknown"

end Processor

namespace Api

/-- Python `str.strip()` for the title and description fields: drop
whitespace from both ends (the inputs at issue use ASCII whitespace, which
`Char.isWhitespace` covers). -/
def pyStrip (s : String) : String :=
  String.mk (((s.data.dropWhile Char.isWhitespace).reverse.dropWhile
    Char.isWhitespace).reverse)

/-- Embedding of the `sanitize_string` field validator of `TaskCreate`:
strip a truthy (non-empty) string, return a falsy one unchanged. -/
def sanitize_string (v : String) : String :=
  if v = "" then v else pyStrip v

/-- Python `v.replace("Z", "+00:00")`: the pattern is a single character, so
replacing every occurrence is a character-wise rewrite. -/
def replaceZ (s : String) : String :=
  String.mk (s.data.foldr
    (fun c acc =>
      if c = 'Z' then '+' :: '0' :: '0' :: ':' :: '0' :: '0' :: acc
      else c :: acc)
    [])

/-- Parse exactly `n` decimal digits, returning their value and the rest. -/
def readDigits : Nat → Nat → List Char → Option (Nat × List Char)
  | 0, acc, cs => some (acc, cs)
  | Nat.succ m, acc, c :: cs =>
      if c.isDigit then readDigits m (acc * 10 + (c.toNat - 48)) cs else none
  | Nat.succ _, _, [] => none

/-- Consume one expected character. -/
def expectChar (c : Char) : List Char → Option (List Char)
  | d :: cs => if d = c then some cs else none
  | [] => none

/-- Gregorian leap-year rule, as used by the Python `datetime` module. -/
def isLeapYear (y : Nat) : Bool :=
  (y % 4 = 0 && y % 100 ≠ 0) || y % 400 = 0

/-- Days in a month of a given year. -/
def daysInMonth (y m : Nat) : Nat :=
  if m = 2 then (if isLeapYear y then 29 else 28)
  else if m = 4 || m = 6 || m = 9 || m = 11 then 30
  else 31

/-- Parse the mandatory `YYYY-MM-DD` date prefix with range checks. -/
def parseDate (cs : List Char) : Option (List Char) := do
  let (y, cs) ← readDigits 4 0 cs
  let cs ← expectChar '-' cs
  let (m, cs) ← readDigits 2 0 cs
  let cs ← expectChar '-' cs
  let (d, cs) ← readDigits 2 0 cs
  if 1 ≤ m && m ≤ 12 && 1 ≤ d && d ≤ daysInMonth y m then some cs else none

/-- Parse an optional fractional-seconds part: a dot followed by one to six
digits. -/
def parseFraction (cs : List Char) : Option (List Char) :=
  match cs with
  | '.' :: rest =>
      let digits := rest.takeWhile Char.isDigit
      if 1 ≤ digits.length && digits.length ≤ 6 then some (rest.drop digits.length)
      else none
  | _ => some cs

/-- Parse `HH:MM`, optionally followed by `:SS` and a fraction, with range
checks. -/
def parseTime (cs : List Char) : Option (List Char) := do
  let (hh, cs) ← readDigits 2 0 cs
  let cs ← expectChar ':' cs
  let (mi, cs) ← readDigits 2 0 cs
  if hh ≤ 23 && mi ≤ 59 then
    match cs with
    | ':' :: cs2 => do
        let (ss, cs3) ← readDigits 2 0 cs2
        if ss ≤ 59 then parseFraction cs3 else none
    | _ => some cs
  else none

/-- Parse an optional UTC offset `+HH:MM` or `-HH:MM`, optionally followed
by `:SS`, with range checks. -/
def parseOffset (cs : List Char) : Option (List Char) :=
  match cs with
  | [] => some []
  | c :: rest =>
      if c = '+' || c = '-' then
        (do
          let (oh, cs2) ← readDigits 2 0 rest
          let cs3 ← expectChar ':' cs2
          let (om, cs4) ← readDigits 2 0 cs3
          match cs4 with
          | ':' :: cs5 => do
              let (os, cs6) ← readDigits 2 0 cs5
              if oh ≤ 23 && om ≤ 59 && os ≤ 59 then some cs6 else none
          | _ => if oh ≤ 23 && om ≤ 59 then some cs4 else none)
      else none

/-- Model of the standard-library `datetime.fromisoformat` as a recognizer,
restricted to the grammar the producer and its callers exercise: a mandatory
`YYYY-MM-DD` date, optionally followed by any single separator character and
a time `HH:MM`, optional `:SS`, optional fraction, optional explicit UTC
offset.  Inputs outside this grammar are treated as unparseable. -/
def fromisoformat (s : String) : Bool :=
  match parseDate s.data with
  | none => false
  | some rest =>
      match rest with
      | [] => true
      | _ :: timePart =>
          match parseTime timePart with
          | none => false
          | some afterTime =>
              match parseOffset afterTime with
              | some [] => true
              | _ => false

/-- Embedding of the `validate_due_date` field validator of `TaskCreate`:
accept an absent value; otherwise replace `Z` by `+00:00`, require the
result to parse as a date-time, and return the original string. -/
def validate_due_date : Option String → Except String (Option String)
  | none => Except.ok none
  | some v =>
      if fromisoformat (replaceZ v) then Except.ok (some v)
      else Except.error "Invalid ISO 8601 timestamp format"

/-- An inbound task-creation request body, before validation.  The four
fields of `TaskCreate`; priority arrives as a raw string to be checked
against the literal enumeration. -/
structure RawTaskCreate where
  title : String
  description : String
  priority : String
  due_date : Option String
  deriving DecidableEq, Repr

/-- A validated `TaskCreate` value: the fields as pydantic stores them after
constraint checks and field validators. -/
structure TaskCreate where
  title : String
  description : String
  priority : String
  due_date : Option String
  deriving DecidableEq, Repr

/-- One pydantic string field with `min_length`/`max_length` constraints and
the `sanitize_string` validator.  Pydantic v2 checks the `Field` length
bounds on the raw value first and only then runs the mode-after validator;
the value the validator returns is stored without being re-checked. -/
def validateStringField (minLen maxLen : Nat) (v : String) :
    Except String String :=
  if minLen ≤ v.length ∧ v.length ≤ maxLen then Except.ok (sanitize_string v)
  else Except.error "string length out of range"

/-- The `Literal` check on the priority field. -/
def validate_priority (v : String) : Bool :=
  v == "low" || v == "medium" || v == "high"

/-- Validation of a `TaskCreate` request body: both string fields against
their bounds and validators, the priority literal, and the due-date
validator.  Any failing field yields a `RequestValidationError` (the error
text of the first failing field stands for the pydantic detail list). -/
def TaskCreate.validate (r : RawTaskCreate) : Except String TaskCreate :=
  match validateStringField 1 200 r.title with
  | Except.error e => Except.error e
  | Except.ok t =>
      match validateStringField 1 2000 r.description with
      | Except.error e => Except.error e
      | Except.ok d =>
          if validate_priority r.priority then
            match validate_due_date r.due_date with
            | Except.error e => Except.error e
            | Except.ok dd => Except.ok ⟨t, d, r.priority, dd⟩
          else Except.error "priority must be low, medium or high"

/-- The `TaskResponse` record returned on 201; the SQS `message_body` is
built from the same seven fields. -/
structure TaskResponse where
  task_id : String
  title : String
  description : String
  priority : String
  due_date : Option String
  created_at : String
  status : String
  deriving DecidableEq, Repr

/-- One `sqs_client.send_message` call as the endpoint issues it. -/
structure QueueMessage where
  queueBody : TaskResponse
  messageGroupId : String
  messageDeduplicationId : String
  deriving DecidableEq, Repr

/-- Outcome of the `send_message` call: success with a message id, a
`botocore` `ClientError` carrying the error code and message of the queue
medium, or any other exception. -/
inductive SendOutcome where
  | ok (messageId : String)
  | clientError (code msg : String)
  | unexpected (msg : String)
  deriving DecidableEq, Repr

/-- What the HTTP caller observes from the `/tasks` endpoint, after the
exception handlers of the app have rendered exceptions: a 201 with the task
record, a 400 from the `RequestValidationError` handler, or an
`HTTPException` rendered by its handler as a JSON body whose message is the
exception detail. -/
inductive ApiResult where
  | created (resp : TaskResponse)
  | validationError (detail : String)
  | httpError (statusCode : Nat) (message : String)
  deriving DecidableEq, Repr

/-- Embedding of the `create_task` endpoint.  `task_id` and `created_at`
stand for the freshly generated `uuid.uuid4()` and current timestamp;
`send` is the behavior of the queue medium on this call.  The result pairs
the HTTP outcome with the list of `send_message` calls attempted: request
validation happens before the handler body runs, so a validation failure
attempts no send; otherwise the serialized record is sent with
`MessageGroupId` equal to `"tasks"` and `MessageDeduplicationId` equal to
the task id.  A `ClientError` becomes an `HTTPException` 500 whose detail
embeds the error message of the queue medium; any other exception becomes
an `HTTPException` 500 with a fixed generic detail. -/
def create_task (task_id created_at : String) (send : SendOutcome)
    (r : RawTaskCreate) : ApiResult × List QueueMessage :=
  match TaskCreate.validate r with
  | Except.error e => (ApiResult.validationError e, [])
  | Except.ok task =>
      let record : TaskResponse :=
        ⟨task_id, task.title, task.description, task.priority, task.due_date,
          created_at, "queued"⟩
      let msg : QueueMessage := ⟨record, "tasks", task_id⟩
      match send with
      | SendOutcome.ok _ => (ApiResult.created record, [msg])
      | SendOutcome.clientError _ emsg =>
          (ApiResult.httpError 500 ("Failed to queue task: " ++ emsg), [msg])
      | SendOutcome.unexpected _ =>
          (ApiResult.httpError 500
            "An unexpected error occurred while creating the task", [msg])

/-- Outcome of the `validate_api_key` middleware on one request: forward to
the route handler, or answer 403 with the given error and message body
fields. -/
inductive GateOutcome where
  | forward
  | forbidden (error message : String)
  deriving DecidableEq, Repr

/-- The paths the middleware exempts from the API-key check. -/
def exemptPaths : List String := ["/health", "/docs", "/redoc", "/openapi.json"]

/-- Embedding of the `validate_api_key` middleware.  `enableCheck` is the
`ENABLE_API_KEY_CHECK` flag, `validKey` the configured `API_KEY`, `apiKey`
the value of the `x-api-key` request header (`none` when the header is
absent).  The source guards with `if not api_key`, so an absent header and
a present empty-string header take the same missing-key branch. -/
def validate_api_key (enableCheck : Bool) (validKey : String) (path : String)
    (apiKey : Option String) : GateOutcome :=
  if path ∈ exemptPaths then GateOutcome.forward
  else if enableCheck then
    match apiKey with
    | none =>
        GateOutcome.forbidden "Forbidden"
          "Missing API Key. Include x-api-key header."
    | some k =>
        if k = "" then
          GateOutcome.forbidden "Forbidden"
            "Missing API Key. Include x-api-key header."
        else if k ≠ validKey then
          GateOutcome.forbidden "Forbidden" "Invalid API Key."
        else GateOutcome.forward
  else GateOutcome.forward

end Api

end TaskQueue

open TaskQueue.Processor TaskQueue.Api

/-- Adding to the idempotency set preserves membership. -/
theorem mem_process_task (p : List JVal) (td : TaskData) (x : JVal)
    (hx : x ∈ p) : x ∈ process_task p td := by
  by_cases h : getTaskId td ∈ p
  · simpa [process_task, h] using hx
  · have hne : process_task p td = p ++ [getTaskId td] := by simp [process_task, h]
    rw [hne]
    exact List.mem_append_left _ hx

/-- One loop iteration splits into its registry component (depending only on
the incoming registry) and its failure contribution (depending only on the
record), appended to the failures accumulated so far. -/
theorem processRecord_decomp (p : List JVal) (f : List String) (r : SQSRecord) :
    processRecord (p, f) r = ((processRecord (p, []) r).1, f ++ recordFails r) := by
  rcases r with ⟨mid, body⟩
  rcases body with _ | b
  · simp [processRecord, recordFails]
  · cases b <;> simp [processRecord, recordFails]

/-- A fold of the record loop from any starting failure accumulator equals
the fold from the empty accumulator with the start prepended. -/
theorem foldl_processRecord_state (records : List SQSRecord) (p : List JVal)
    (f : List String) :
    List.foldl processRecord (p, f) records =
      ((List.foldl processRecord (p, []) records).1,
        f ++ (List.foldl processRecord (p, []) records).2) := by
  induction records generalizing p f with
  | nil => simp
  | cons r rs ih =>
      simp only [List.foldl_cons]
      have hr : processRecord (p, ([] : List String)) r =
          ((processRecord (p, []) r).1, recordFails r) := by
        rw [processRecord_decomp]
        simp
      rw [processRecord_decomp, ih (processRecord (p, []) r).1 (f ++ recordFails r),
        hr, ih (processRecord (p, []) r).1 (recordFails r)]
      simp

/-- Unfolding the handler one record at a time. -/
theorem lambda_handler_cons (p : List JVal) (r : SQSRecord)
    (rs : List SQSRecord) :
    lambda_handler p (r :: rs) =
      ((lambda_handler (processRecord (p, []) r).1 rs).1,
        recordFails r ++ (lambda_handler (processRecord (p, []) r).1 rs).2) := by
  unfold lambda_handler
  simp only [List.foldl_cons]
  have hr : processRecord (p, ([] : List String)) r =
      ((processRecord (p, []) r).1, recordFails r) := by
    rw [processRecord_decomp]
    simp
  rw [hr, foldl_processRecord_state]

/-- One loop iteration preserves membership in the registry. -/
theorem mem_processRecord_fst (p : List JVal) (f : List String) (r : SQSRecord)
    (x : JVal) (hx : x ∈ p) : x ∈ (processRecord (p, f) r).1 := by
  rcases r with ⟨mid, body⟩
  rcases body with _ | b
  · exact mem_process_task _ _ _ hx
  · cases b with
    | malformed raw => exact hx
    | value v => exact hx
    | obj fields => exact mem_process_task _ _ _ hx

/-- The handler never removes anything from the registry. -/
theorem mem_lambda_handler (p : List JVal) (records : List SQSRecord)
    (x : JVal) (hx : x ∈ p) : x ∈ (lambda_handler p records).1 := by
  induction records generalizing p with
  | nil => exact hx
  | cons r rs ih =>
      rw [lambda_handler_cons]
      exact ih _ (mem_processRecord_fst p [] r x hx)

/-- The failure contribution of one record is at most its own message id. -/
theorem recordFails_sublist (r : SQSRecord) :
    List.Sublist (recordFails r) [r.messageId.getD "unknown"] := by
  rcases r with ⟨mid, body⟩
  rcases body with _ | b
  · exact List.nil_sublist _
  · cases b with
    | malformed raw => exact List.Sublist.refl _
    | value v => exact List.Sublist.refl _
    | obj fields => exact List.nil_sublist _

/-- Induction core for the all-distinct fresh batch property. -/
theorem distinct_fresh_batch_aux (records : List SQSRecord) :
    ∀ p : List JVal,
      (∀ r ∈ records, isObjRecord r = true) →
      (records.map recordTaskId).Nodup →
      (∀ r ∈ records, recordTaskId r ∉ p) →
      (lambda_handler p records).2 = [] ∧
        (lambda_handler p records).1.length = p.length + records.length := by
  induction records with
  | nil =>
      intro p _ _ _
      exact ⟨rfl, by simp [lambda_handler]⟩
  | cons r rs ih =>
      intro p hobj hnodup hfresh
      rcases r with ⟨mid, body⟩
      rcases body with _ | b
      · exact absurd (hobj _ (List.mem_cons_self _ _)) (by simp [isObjRecord])
      cases b with
      | malformed raw =>
          exact absurd (hobj _ (List.mem_cons_self _ _)) (by simp [isObjRecord])
      | value v =>
          exact absurd (hobj _ (List.mem_cons_self _ _)) (by simp [isObjRecord])
      | obj fields =>
          have htid : recordTaskId ⟨mid, some (Body.obj fields)⟩ = getTaskId fields := rfl
          have hfr : getTaskId fields ∉ p := by
            have h := hfresh _ (List.mem_cons_self _ _)
            rwa [htid] at h
          have hstep : processRecord (p, ([] : List String))
              ⟨mid, some (Body.obj fields)⟩ = (p ++ [getTaskId fields], []) := by
            simp [processRecord, process_task, hfr]
          have hpair : (∀ x ∈ rs, ¬recordTaskId x = getTaskId fields) ∧
              (List.map recordTaskId rs).Nodup := by
            simpa [htid] using hnodup
          have hih := ih (p ++ [getTaskId fields])
            (fun r' hr' => hobj r' (List.mem_cons_of_mem _ hr'))
            hpair.2
            (by
              intro r' hr'
              rw [List.mem_append]
              push_neg
              refine ⟨hfresh r' (List.mem_cons_of_mem _ hr'), ?_⟩
              intro hcon
              exact hpair.1 r' hr' (List.mem_singleton.mp hcon))
          have hunfold : lambda_handler p (⟨mid, some (Body.obj fields)⟩ :: rs) =
              lambda_handler (p ++ [getTaskId fields]) rs := by
            unfold lambda_handler
            rw [List.foldl_cons, hstep]
          rw [hunfold]
          refine ⟨hih.1, ?_⟩
          rw [hih.2]
          simp only [List.length_append, List.length_cons, List.length_nil]
          omega

/-- C1: a batch whose first entry is well formed with an unregistered task
id and whose second entry has a malformed-JSON body registers the task id of
the first entry, reports exactly the message id of the malformed entry as
its only failure, and continues the loop over every subsequent entry of the
batch from that state. -/
theorem handler_poison_message_isolated (p : List JVal) (fields : TaskData)
    (mid1 mid2 raw : String) (rest : List SQSRecord)
    (hfresh : getTaskId fields ∉ p) :
    lambda_handler p
        [⟨some mid1, some (Body.obj fields)⟩,
          ⟨some mid2, some (Body.malformed raw)⟩] =
      (p ++ [getTaskId fields], [mid2]) ∧
    lambda_handler p
        (⟨some mid1, some (Body.obj fields)⟩ ::
          ⟨some mid2, some (Body.malformed raw)⟩ :: rest) =
      List.foldl processRecord (p ++ [getTaskId fields], [mid2]) rest := by
  have h1 : processRecord (p, ([] : List String))
      ⟨some mid1, some (Body.obj fields)⟩ = (p ++ [getTaskId fields], []) := by
    simp [processRecord, process_task, hfresh]
  have h2 : processRecord ((p ++ [getTaskId fields]), ([] : List String))
      ⟨some mid2, some (Body.malformed raw)⟩ = (p ++ [getTaskId fields], [mid2]) := by
    simp [processRecord]
  constructor
  · unfold lambda_handler
    rw [List.foldl_cons, h1, List.foldl_cons, h2, List.foldl_nil]
  · unfold lambda_handler
    rw [List.foldl_cons, h1, List.foldl_cons, h2]

/-- Witness for C1 at a concrete batch. -/
theorem handler_poison_message_isolated_witness :
    getTaskId [("task_id", JVal.s "t1")] ∉ ([] : List JVal) ∧
    lambda_handler []
        [⟨some "m1", some (Body.obj [("task_id", JVal.s "t1")])⟩,
          ⟨some "m2", some (Body.malformed "bad json")⟩] =
      (([] : List JVal) ++ [getTaskId [("task_id", JVal.s "t1")]], ["m2"]) :=
  ⟨by decide,
    (handler_poison_message_isolated [] [("task_id", JVal.s "t1")] "m1" "m2"
      "bad json" [] (by decide)).1⟩

/-- C2: an entry whose task id is already registered leaves the registry and
the failure accumulator exactly as they were, and a batch made of such an
entry returns an empty failure set with the registry unchanged. -/
theorem handler_duplicate_task_noop (p : List JVal) (f : List String)
    (fields : TaskData) (mid : String) (hdup : getTaskId fields ∈ p) :
    processRecord (p, f) ⟨some mid, some (Body.obj fields)⟩ = (p, f) ∧
    lambda_handler p [⟨some mid, some (Body.obj fields)⟩] = (p, []) := by
  have hstep : ∀ g : List String,
      processRecord (p, g) ⟨some mid, some (Body.obj fields)⟩ = (p, g) := by
    intro g
    simp [processRecord, process_task, hdup]
  refine ⟨hstep f, ?_⟩
  unfold lambda_handler
  rw [List.foldl_cons, hstep [], List.foldl_nil]

/-- Witness for C2 at a concrete registered task id. -/
theorem handler_duplicate_task_noop_witness :
    getTaskId [("task_id", JVal.s "t1")] ∈ [JVal.s "t1"] ∧
    lambda_handler [JVal.s "t1"]
        [⟨some "m1", some (Body.obj [("task_id", JVal.s "t1")])⟩] =
      ([JVal.s "t1"], []) :=
  ⟨by decide,
    (handler_duplicate_task_noop [JVal.s "t1"] ["f0"]
      [("task_id", JVal.s "t1")] "m1" (by decide)).2⟩

/-- C3: a batch of well-formed entries with pairwise-distinct task ids, none
already registered, yields an empty failure set and grows the registry by
exactly the batch length; the empty batch yields an empty failure set and an
unchanged registry. -/
theorem handler_distinct_fresh_batch (p : List JVal) (records : List SQSRecord)
    (hobj : ∀ r ∈ records, isObjRecord r = true)
    (hnodup : (records.map recordTaskId).Nodup)
    (hfresh : ∀ r ∈ records, recordTaskId r ∉ p) :
    (lambda_handler p records).2 = [] ∧
    (lambda_handler p records).1.length = p.length + records.length ∧
    lambda_handler p [] = (p, []) := by
  obtain ⟨h1, h2⟩ := distinct_fresh_batch_aux records p hobj hnodup hfresh
  exact ⟨h1, h2, rfl⟩

/-- Witness for C3 at a concrete two-entry batch. -/
theorem handler_distinct_fresh_batch_witness :
    (lambda_handler [JVal.s "old"]
        [⟨some "m1", some (Body.obj [("task_id", JVal.s "a")])⟩,
          ⟨some "m2", some (Body.obj [("task_id", JVal.s "b")])⟩]).2 = [] ∧
    (lambda_handler [JVal.s "old"]
        [⟨some "m1", some (Body.obj [("task_id", JVal.s "a")])⟩,
          ⟨some "m2", some (Body.obj [("task_id", JVal.s "b")])⟩]).1.length =
      ([JVal.s "old"] : List JVal).length + 2 ∧
    lambda_handler [JVal.s "old"] [] = ([JVal.s "old"], []) :=
  handler_distinct_fresh_batch [JVal.s "old"]
    [⟨some "m1", some (Body.obj [("task_id", JVal.s "a")])⟩,
      ⟨some "m2", some (Body.obj [("task_id", JVal.s "b")])⟩]
    (by decide) (by decide) (by decide)

/-- C5: an entry whose payload lacks a task id resolves to the sentinel
string, is processed as a success (no failure recorded) with the sentinel
added to the registry, and a later entry also lacking a task id is treated
as a duplicate of it: the registry gains the sentinel once and both entries
report success. -/
theorem handler_missing_task_id_sentinel (p : List JVal)
    (flds1 flds2 : TaskData) (mid1 mid2 : String)
    (h1 : dictGet flds1 "task_id" = none) (h2 : dictGet flds2 "task_id" = none)
    (hfresh : JVal.s "unknown" ∉ p) :
    getTaskId flds1 = JVal.s "unknown" ∧
    lambda_handler p [⟨some mid1, some (Body.obj flds1)⟩] =
      (p ++ [JVal.s "unknown"], []) ∧
    lambda_handler p
        [⟨some mid1, some (Body.obj flds1)⟩,
          ⟨some mid2, some (Body.obj flds2)⟩] =
      (p ++ [JVal.s "unknown"], []) := by
  have ht1 : getTaskId flds1 = JVal.s "unknown" := by simp [getTaskId, h1]
  have ht2 : getTaskId flds2 = JVal.s "unknown" := by simp [getTaskId, h2]
  have hs1 : processRecord (p, ([] : List String))
      ⟨some mid1, some (Body.obj flds1)⟩ = (p ++ [JVal.s "unknown"], []) := by
    simp [processRecord, process_task, ht1, hfresh]
  have hs2 : processRecord ((p ++ [JVal.s "unknown"]), ([] : List String))
      ⟨some mid2, some (Body.obj flds2)⟩ = (p ++ [JVal.s "unknown"], []) := by
    have hmem : getTaskId flds2 ∈ p ++ [JVal.s "unknown"] := by
      rw [ht2]
      exact List.mem_append_right _ (List.mem_singleton.mpr rfl)
    simp [processRecord, process_task, hmem]
  refine ⟨ht1, ?_, ?_⟩
  · unfold lambda_handler
    rw [List.foldl_cons, hs1, List.foldl_nil]
  · unfold lambda_handler
    rw [List.foldl_cons, hs1, List.foldl_cons, hs2, List.foldl_nil]

/-- Witness for C5 at concrete payloads without a task id. -/
theorem handler_missing_task_id_sentinel_witness :
    getTaskId ([] : TaskData) = JVal.s "unknown" ∧
    lambda_handler []
        [⟨some "m1", some (Body.obj [])⟩] =
      (([] : List JVal) ++ [JVal.s "unknown"], []) ∧
    lambda_handler []
        [⟨some "m1", some (Body.obj [])⟩,
          ⟨some "m2", some (Body.obj [("title", JVal.s "x")])⟩] =
      (([] : List JVal) ++ [JVal.s "unknown"], []) :=
  handler_missing_task_id_sentinel [] [] [("title", JVal.s "x")] "m1" "m2"
    (by decide) (by decide) (by decide)

/-- C7: the idempotency registry is empty at consumer-process start, and a
batch run never removes an entry: the registry after the handler contains
every value it contained before. -/
theorem handler_registry_monotone :
    processed_tasks = ([] : List JVal) ∧
    ∀ (p : List JVal) (records : List SQSRecord) (x : JVal),
      x ∈ p → x ∈ (lambda_handler p records).1 :=
  ⟨rfl, fun p records x hx => mem_lambda_handler p records x hx⟩

/-- Witness for C7 at a concrete registry and batch. -/
theorem handler_registry_monotone_witness :
    JVal.s "a" ∈ ([JVal.s "a"] : List JVal) ∧
    JVal.s "a" ∈
      (lambda_handler [JVal.s "a"]
        [⟨some "m1", some (Body.malformed "oops")⟩]).1 :=
  ⟨by decide,
    handler_registry_monotone.2 [JVal.s "a"]
      [⟨some "m1", some (Body.malformed "oops")⟩] (JVal.s "a") (by decide)⟩

/-- C10: for every batch, the returned failure identifiers form a sublist of
the message ids of the batch in batch order (with the default identifier for
an entry without one): every failure comes from some entry, each entry
contributes at most one failure, order is preserved, and no failure is
fabricated. -/
theorem handler_failures_from_batch (p : List JVal) (records : List SQSRecord) :
    List.Sublist (lambda_handler p records).2
      (records.map (fun r => r.messageId.getD "unknown")) := by
  induction records generalizing p with
  | nil => exact List.nil_sublist _
  | cons r rs ih =>
      rw [lambda_handler_cons]
      simp only [List.map_cons]
      have h := List.Sublist.append (recordFails_sublist r)
        (ih (processRecord (p, []) r).1)
      simpa using h

/-- Inversion of one pydantic string field: success means the raw value met
both bounds and the stored value is the sanitized raw value. -/
theorem validateStringField_ok_inv (minLen maxLen : Nat) (v t : String)
    (h : validateStringField minLen maxLen v = Except.ok t) :
    minLen ≤ v.length ∧ v.length ≤ maxLen ∧ t = sanitize_string v := by
  unfold validateStringField at h
  by_cases hc : minLen ≤ v.length ∧ v.length ≤ maxLen
  · rw [if_pos hc] at h
    injection h with h2
    exact ⟨hc.1, hc.2, h2.symm⟩
  · rw [if_neg hc] at h
    exact absurd h (by simp)

/-- Inversion of request validation: success means every field check passed
and the stored fields are the sanitized raw fields. -/
theorem validate_ok_inv (r : RawTaskCreate) (task : TaskCreate)
    (h : TaskCreate.validate r = Except.ok task) :
    (1 ≤ r.title.length ∧ r.title.length ≤ 200) ∧
    (1 ≤ r.description.length ∧ r.description.length ≤ 2000) ∧
    validate_priority r.priority = true ∧
    validate_due_date r.due_date = Except.ok task.due_date ∧
    task.title = sanitize_string r.title ∧
    task.description = sanitize_string r.description ∧
    task.priority = r.priority := by
  unfold TaskCreate.validate at h
  cases hv1 : validateStringField 1 200 r.title with
  | error e => simp [hv1] at h
  | ok t =>
      cases hv2 : validateStringField 1 2000 r.description with
      | error e => simp [hv1, hv2] at h
      | ok d =>
          by_cases h3 : validate_priority r.priority = true
          · cases hdd : validate_due_date r.due_date with
            | error e => simp [hv1, hv2, h3, hdd] at h
            | ok d2 =>
                simp only [hv1, hv2, h3, hdd, if_true] at h
                obtain ⟨hb1, hb2, hts⟩ := validateStringField_ok_inv _ _ _ _ hv1
                obtain ⟨hb3, hb4, hds⟩ := validateStringField_ok_inv _ _ _ _ hv2
                have htask : (⟨t, d, r.priority, d2⟩ : TaskCreate) = task := by
                  simpa using h
                subst htask
                exact ⟨⟨hb1, hb2⟩, ⟨hb3, hb4⟩, h3, by exact hdd.symm ▸ rfl, hts, hds, rfl⟩
          · simp [hv1, hv2, h3] at h

/-- A non-empty string is sanitized to its stripped form. -/
theorem sanitize_string_eq_pyStrip (v : String) (h : 1 ≤ v.length) :
    sanitize_string v = pyStrip v := by
  unfold sanitize_string
  rw [if_neg]
  intro hv
  rw [hv] at h
  exact absurd h (by decide)

/-- Reduction of request validation when title, description and priority
pass, leaving only the due-date check. -/
theorem validate_reduces_to_due_date (title desc prio : String)
    (dd : Option String)
    (ht : 1 ≤ title.length ∧ title.length ≤ 200)
    (hd : 1 ≤ desc.length ∧ desc.length ≤ 2000)
    (hp : validate_priority prio = true) :
    TaskCreate.validate ⟨title, desc, prio, dd⟩ =
      match validate_due_date dd with
      | Except.error e => Except.error e
      | Except.ok d2 =>
          Except.ok ⟨sanitize_string title, sanitize_string desc, prio, d2⟩ := by
  unfold TaskCreate.validate validateStringField
  rw [if_pos ht, if_pos hd]
  simp [hp]

/-- C4 counterexample: a title consisting of a single space is non-empty
before trimming and empty after stripping, yet the request is accepted and
stored with the empty-string title, because the length bound is checked
before the stripping validator runs. -/
theorem api_whitespace_title_counterexample :
    TaskCreate.validate ⟨" ", "Valid description", "high", none⟩ =
      Except.ok ⟨"", "Valid description", "high", none⟩ ∧
    (" " : String) ≠ "" ∧ pyStrip " " = "" := by
  refine ⟨rfl, by decide, rfl⟩

/-- C4 (amended): every accepted request stores title and description with
surrounding whitespace stripped, and the length bounds hold of the raw
values before trimming; a value that strips to the empty string is therefore
accepted (and stored empty) whenever its raw length is within bounds, not
rejected. -/
theorem api_stores_stripped_fields (r : RawTaskCreate) (task : TaskCreate)
    (h : TaskCreate.validate r = Except.ok task) :
    task.title = pyStrip r.title ∧
    task.description = pyStrip r.description ∧
    1 ≤ r.title.length ∧ r.title.length ≤ 200 ∧
    1 ≤ r.description.length ∧ r.description.length ≤ 2000 := by
  obtain ⟨⟨hb1, hb2⟩, ⟨hb3, hb4⟩, _, _, hts, hds, _⟩ := validate_ok_inv r task h
  exact ⟨by rw [hts, sanitize_string_eq_pyStrip _ hb1],
    by rw [hds, sanitize_string_eq_pyStrip _ hb3], hb1, hb2, hb3, hb4⟩

/-- Witness for the amended C4 at a concrete whitespace-padded request. -/
theorem api_stores_stripped_fields_witness :
    ("Test Title" : String) = pyStrip "  Test Title  " ∧
    ("Test Description" : String) = pyStrip "  Test Description  " ∧
    1 ≤ ("  Test Title  " : String).length ∧
    ("  Test Title  " : String).length ≤ 200 ∧
    1 ≤ ("  Test Description  " : String).length ∧
    ("  Test Description  " : String).length ≤ 2000 :=
  api_stores_stripped_fields
    ⟨"  Test Title  ", "  Test Description  ", "high", none⟩
    ⟨"Test Title", "Test Description", "high", none⟩ rfl

/-- C6 counterexample: on a queue-medium `ClientError` the 500 response
detail embeds the error message of the queue medium verbatim rather than a
generic indication, so internal detail is exposed in the response body. -/
theorem api_queue_error_leak_counterexample :
    (create_task "t-1" "2026-01-01T00:00:00+00:00"
        (SendOutcome.clientError "ThrottlingException"
          "Rate exceeded for queue arn 123")
        ⟨"Title", "Description text", "high", none⟩).1 =
      ApiResult.httpError 500
        "Failed to queue task: Rate exceeded for queue arn 123" ∧
    ("Failed to queue task: Rate exceeded for queue arn 123" : String) ≠
      "An unexpected error occurred while creating the task" := by
  refine ⟨rfl, by decide⟩

/-- C6 (amended): any queue-medium error on a validated request yields a
dependency-error 500 result, never a success or validation result; a
`ClientError` produces a detail embedding the error message of the queue
medium, and only the unexpected-exception branch produces the fixed generic
message. -/
theorem api_queue_error_dependency (task_id created_at code emsg umsg : String)
    (r : RawTaskCreate) (task : TaskCreate)
    (hok : TaskCreate.validate r = Except.ok task) :
    (create_task task_id created_at (SendOutcome.clientError code emsg) r).1 =
      ApiResult.httpError 500 ("Failed to queue task: " ++ emsg) ∧
    (create_task task_id created_at (SendOutcome.unexpected umsg) r).1 =
      ApiResult.httpError 500
        "An unexpected error occurred while creating the task" := by
  unfold create_task
  rw [hok]
  exact ⟨rfl, rfl⟩

/-- Witness for the amended C6 at a concrete request and queue error. -/
theorem api_queue_error_dependency_witness :
    TaskCreate.validate ⟨"Title", "Description text", "high", none⟩ =
      Except.ok ⟨"Title", "Description text", "high", none⟩ ∧
    (create_task "t-1" "c-1" (SendOutcome.clientError "AccessDenied" "detail")
        ⟨"Title", "Description text", "high", none⟩).1 =
      ApiResult.httpError 500 ("Failed to queue task: " ++ "detail") ∧
    (create_task "t-1" "c-1" (SendOutcome.unexpected "boom")
        ⟨"Title", "Description text", "high", none⟩).1 =
      ApiResult.httpError 500
        "An unexpected error occurred while creating the task" :=
  have h := api_queue_error_dependency "t-1" "c-1" "AccessDenied" "detail"
    "boom" ⟨"Title", "Description text", "high", none⟩
    ⟨"Title", "Description text", "high", none⟩ rfl
  ⟨rfl, h.1, h.2⟩

/-- C8: on a request whose other fields pass validation, the outcome is a
validation-error result with no send attempted exactly when the due date
fails date-time parsing (after the `Z` rewrite), independent of the queue
medium; and both a `Z`-suffixed and an explicit-offset date-time are
accepted by the due-date validator. -/
theorem api_due_date_gate (title desc prio dd task_id created_at : String)
    (send : SendOutcome)
    (ht : 1 ≤ title.length ∧ title.length ≤ 200)
    (hd : 1 ≤ desc.length ∧ desc.length ≤ 2000)
    (hp : validate_priority prio = true) :
    ((create_task task_id created_at send ⟨title, desc, prio, some dd⟩ =
        (ApiResult.validationError "Invalid ISO 8601 timestamp format", [])) ↔
      fromisoformat (replaceZ dd) = false) ∧
    validate_due_date (some "2026-01-15T18:00:00Z") =
      Except.ok (some "2026-01-15T18:00:00Z") ∧
    validate_due_date (some "2026-01-15T18:00:00+05:00") =
      Except.ok (some "2026-01-15T18:00:00+05:00") := by
  refine ⟨?_, rfl, rfl⟩
  have hv := validate_reduces_to_due_date title desc prio (some dd) ht hd hp
  by_cases hiso : fromisoformat (replaceZ dd)
  · have hval : TaskCreate.validate ⟨title, desc, prio, some dd⟩ =
        Except.ok ⟨sanitize_string title, sanitize_string desc, prio, some dd⟩ := by
      rw [hv]
      simp [validate_due_date, hiso]
    constructor
    · intro hcon
      unfold create_task at hcon
      rw [hval] at hcon
      cases send <;> simp at hcon
    · intro hcon
      rw [hcon] at hiso
      exact absurd hiso (by decide)
  · have hiso2 : fromisoformat (replaceZ dd) = false := by
      simpa using hiso
    have hval : TaskCreate.validate ⟨title, desc, prio, some dd⟩ =
        Except.error "Invalid ISO 8601 timestamp format" := by
      rw [hv]
      simp [validate_due_date, hiso2]
    constructor
    · intro _
      exact hiso2
    · intro _
      unfold create_task
      rw [hval]

/-- Witness for C8 at a concrete malformed due date. -/
theorem api_due_date_gate_witness :
    ((create_task "t-1" "2026-01-10T12:00:00+00:00" (SendOutcome.ok "m-1")
        ⟨"Test Task", "Test Description", "high", some "not-a-date"⟩ =
        (ApiResult.validationError "Invalid ISO 8601 timestamp format", [])) ↔
      fromisoformat (replaceZ "not-a-date") = false) ∧
    validate_due_date (some "2026-01-15T18:00:00Z") =
      Except.ok (some "2026-01-15T18:00:00Z") ∧
    validate_due_date (some "2026-01-15T18:00:00+05:00") =
      Except.ok (some "2026-01-15T18:00:00+05:00") :=
  api_due_date_gate "Test Task" "Test Description" "high" "not-a-date" "t-1"
    "2026-01-10T12:00:00+00:00" (SendOutcome.ok "m-1") (by decide) (by decide)
    (by decide)

/-- C9 counterexample: with gating enabled, an `x-api-key` header that is
present with the empty-string value (which differs from the configured key)
is answered with the missing-key message, not the invalid-key message,
because the source guards with Python truthiness. -/
theorem api_key_empty_header_counterexample :
    validate_api_key true "test-api-key-12345" "/tasks" (some "") =
      GateOutcome.forbidden "Forbidden"
        "Missing API Key. Include x-api-key header." ∧
    (some "" : Option String) ≠ none ∧
    ("" : String) ≠ "test-api-key-12345" := by
  refine ⟨rfl, by decide, by decide⟩

/-- C9 (amended): with gating enabled and a non-empty configured key, on a
non-exempt path an absent header yields 403 with the missing-key message, a
present non-empty wrong value yields 403 with the distinct invalid-key
message (a present empty value is treated as missing), the correct value
forwards to the handler, every exempt path (health and documentation)
forwards regardless of configuration and header, and a disabled gate
forwards everything. -/
theorem api_key_gate (validKey path key : String)
    (hpath : path ∉ exemptPaths) (hvk : validKey ≠ "") :
    validate_api_key true validKey path none =
      GateOutcome.forbidden "Forbidden"
        "Missing API Key. Include x-api-key header." ∧
    (key ≠ "" → key ≠ validKey →
      validate_api_key true validKey path (some key) =
        GateOutcome.forbidden "Forbidden" "Invalid API Key.") ∧
    validate_api_key true validKey path (some validKey) = GateOutcome.forward ∧
    (∀ (check : Bool) (k : Option String) (p2 : String), p2 ∈ exemptPaths →
      validate_api_key check validKey p2 k = GateOutcome.forward) ∧
    (∀ k : Option String,
      validate_api_key false validKey path k = GateOutcome.forward) := by
  refine ⟨?_, ?_, ?_, ?_, ?_⟩
  · simp [validate_api_key, hpath]
  · intro hk hkv
    simp [validate_api_key, hpath, hk, hkv]
  · simp [validate_api_key, hpath, hvk]
  · intro check k p2 hp2
    simp [validate_api_key, hp2]
  · intro k
    simp [validate_api_key, hpath]

/-- Witness for the amended C9 at the configured test key. -/
theorem api_key_gate_witness :
    validate_api_key true "test-api-key-12345" "/tasks" none =
      GateOutcome.forbidden "Forbidden"
        "Missing API Key. Include x-api-key header." ∧
    validate_api_key true "test-api-key-12345" "/tasks" (some "wrong-key") =
      GateOutcome.forbidden "Forbidden" "Invalid API Key." ∧
    validate_api_key true "test-api-key-12345" "/tasks"
        (some "test-api-key-12345") = GateOutcome.forward ∧
    validate_api_key false "test-api-key-12345" "/health" none =
      GateOutcome.forward :=
  have h := api_key_gate "test-api-key-12345" "/tasks" "wrong-key"
    (by decide) (by decide)
  ⟨h.1, h.2.1 (by decide) (by decide), h.2.2.1,
    h.2.2.2.1 false none "/health" (by decide)⟩
